import Mathlib

/-!
Shallow embedding of the Rust tutorial repository `rust_structs_enums`
(files `src/example.rs` and `src/enums_and_patterns.rs`).

Machine integers are modelled as `Nat` (for `u32`, `u8`) and `Int` (for
`i32`), with release-mode wrapping semantics made explicit via `% 2^w`
where overflow is reachable.  `println!` side effects are modelled as
lists of output lines returned alongside the value.
-/

namespace RustStructsEnums

/-- `2^32`, the modulus of Rust's `u32` arithmetic. -/
def U32_MOD : Nat := 2 ^ 32

/-- `u32` multiplication with release-mode wrapping semantics. -/
def mulU32 (a b : Nat) : Nat := (a * b) % U32_MOD

/-- Wrap an integer into the `i32` range `[-2^31, 2^31)`,
release-mode wrapping semantics of `i32` arithmetic. -/
def wrapI32 (x : Int) : Int := (x + 2 ^ 31) % (2 ^ 32) - 2 ^ 31

/-- `fn area(width: u32, height: u32) -> u32 { width * height }`
(`src/example.rs` lines 28-30). -/
def area (width height : Nat) : Nat := mulU32 width height

/-- `fn area2(rect: (u32, u32)) -> u32 { rect.0 * rect.1 }`
(`src/example.rs` lines 66-68). -/
def area2 (rect : Nat × Nat) : Nat := mulU32 rect.1 rect.2

/-- `struct Rectangle { width: u32, height: u32 }` (`src/example.rs` lines 92-95). -/
structure Rectangle where
  width : Nat
  height : Nat

/-- `fn area3(rect: &Rectangle) -> u32 { rect.width * rect.height }`
(`src/example.rs` lines 109-111). -/
def area3 (rect : Rectangle) : Nat := mulU32 rect.width rect.height

/-- `struct Rectangle4 { width: u32, height: u32 }` (`src/example.rs` lines 312-315). -/
structure Rectangle4 where
  width : Nat
  height : Nat

/-- Method `fn area(&self) -> u32 { self.width * self.height }` of the
`impl Rectangle4` block (`src/example.rs` lines 326-328). -/
def Rectangle4.area (self : Rectangle4) : Nat := mulU32 self.width self.height

/-- `struct Rectangle6 { width: u32, height: u32 }` (`src/example.rs` lines 419-422). -/
structure Rectangle6 where
  width : Nat
  height : Nat

/-- `fn can_hold(&self, other: Rectangle6) -> bool
{ self.width > other.width && self.height > other.height }`
(`src/example.rs` lines 469-471). -/
def Rectangle6.can_hold (self other : Rectangle6) : Bool :=
  decide (self.width > other.width) && decide (self.height > other.height)

/-- `fn can_hold(&self, other: &Rectangle) -> bool
{ self.width > other.width && self.height > other.height }`
(`src/example.rs` lines 530-534). -/
def Rectangle.can_hold (self other : Rectangle) : Bool :=
  decide (self.width > other.width) && decide (self.height > other.height)

/-- The single line printed by `fn main()` of `src/example.rs` (lines 18-26):
`println!("The area of the rectangle is {} square pixels.", area(width1, height1))`
with `width1 = 30`, `height1 = 50`.  The list of output lines models the
observable behaviour of `main`; it performs nothing else. -/
def main_output : List String :=
  ["The area of the rectangle is " ++ toString (area 30 50) ++ " square pixels."]

/-- `enum Coin { Penny, Nickel, Dime, Quarter }`
(`src/enums_and_patterns.rs` lines 344-349). -/
inductive Coin where
  | Penny
  | Nickel
  | Dime
  | Quarter
deriving DecidableEq

/-- `fn value_in_cents(coin: Coin) -> u8` (`src/enums_and_patterns.rs`
lines 351-358): a four-arm `match` on `coin`. -/
def value_in_cents (coin : Coin) : Nat :=
  match coin with
  | Coin.Penny => 1
  | Coin.Nickel => 5
  | Coin.Dime => 10
  | Coin.Quarter => 25

/-- `enum UsState { Alabama, Alaska, /* --snip-- */ }`
(`src/enums_and_patterns.rs` lines 408-413). -/
inductive UsState where
  | Alabama
  | Alaska
deriving DecidableEq

/-- The `Debug` (`{:?}`) formatting of `UsState`, as produced by
`#[derive(Debug)]` on the enum. -/
def UsState.debugFmt : UsState → String
  | UsState.Alabama => "Alabama"
  | UsState.Alaska => "Alaska"

/-- The second definition of `enum Coin`, whose `Quarter` variant carries a
`UsState` (`src/enums_and_patterns.rs` lines 415-420).  Lean does not allow
redefining `Coin` in one file, so this re-definition is named `Coin2`. -/
inductive Coin2 where
  | Penny
  | Nickel
  | Dime
  | Quarter (state : UsState)
deriving DecidableEq

/-- The variant correspondence between the two `Coin` definitions:
each variant of the second `Coin` maps to the like-named variant of the
first, forgetting the `UsState` payload of `Quarter`. -/
def Coin2.toPlain : Coin2 → Coin
  | Coin2.Penny => Coin.Penny
  | Coin2.Nickel => Coin.Nickel
  | Coin2.Dime => Coin.Dime
  | Coin2.Quarter _ => Coin.Quarter

/-- `fn value_in_cents3(coin: Coin) -> u8` (`src/enums_and_patterns.rs`
lines 431-441).  The `Quarter(state)` arm prints
`"State quarter from {:?}"` before returning 25; the result is the pair
(printed lines, returned `u8` value). -/
def value_in_cents3 (coin : Coin2) : List String × Nat :=
  match coin with
  | Coin2.Penny => ([], 1)
  | Coin2.Nickel => ([], 5)
  | Coin2.Dime => ([], 10)
  | Coin2.Quarter state => (["State quarter from " ++ state.debugFmt], 25)

/-- The first definition of `fn plus_one(x: Option<i32>) -> Option<i32>`
(`src/enums_and_patterns.rs` lines 465-474): its `match` maps `None` to
`None` and `Some(i)` to `Some(i + 1)`, the `i32` addition wrapping. -/
def plus_one (x : Option Int) : Option Int :=
  match x with
  | none => none
  | some i => some (wrapI32 (i + 1))

/-- The second, non-exhaustive definition of `plus_one`
(`src/enums_and_patterns.rs` lines 517-521): its `match` has only the
`Some(i)` arm.  The outer `Option` records whether some arm applied:
`none` means no arm of the `match` matched the input. -/
def plus_one_nonexhaustive (x : Option Int) : Option (Option Int) :=
  match x with
  | some i => some (some (wrapI32 (i + 1)))
  | none => none

/-- C1: `value_in_cents` is total on the four-variant `Coin` enum (every
`Coin` value is one of the four variants, each handled by one arm) and
returns 1 for `Penny`, 5 for `Nickel`, 10 for `Dime`, 25 for `Quarter`. -/
theorem value_in_cents_total_and_correct :
    (∀ c : Coin, c = Coin.Penny ∨ c = Coin.Nickel ∨ c = Coin.Dime ∨ c = Coin.Quarter) ∧
    value_in_cents Coin.Penny = 1 ∧ value_in_cents Coin.Nickel = 5 ∧
    value_in_cents Coin.Dime = 10 ∧ value_in_cents Coin.Quarter = 25 := by
  refine ⟨fun c => ?_, rfl, rfl, rfl, rfl⟩
  cases c
  · exact Or.inl rfl
  · exact Or.inr (Or.inl rfl)
  · exact Or.inr (Or.inr (Or.inl rfl))
  · exact Or.inr (Or.inr (Or.inr rfl))

/-- C2 counterexample: at width = height = 2^16 the `u32` product wraps, so
`area` (and the `Rectangle4::area` method) do not return the mathematical
product `w * h` for every input. -/
theorem area_exact_product_cex :
    ¬ (area 65536 65536 = 65536 * 65536 ∧
       Rectangle4.area ⟨65536, 65536⟩ = 65536 * 65536) := by
  decide

/-- C2 amended: `area w h` and the method `Rectangle4::area` on fields
`w`, `h` both return `(w * h) % 2^32`; whenever the product is below
`2^32` that value is exactly `w * h`. -/
theorem area_fn_method_product (w h : Nat) :
    area w h = (w * h) % U32_MOD ∧
    Rectangle4.area ⟨w, h⟩ = area w h ∧
    (w * h < U32_MOD → area w h = w * h) :=
  ⟨rfl, rfl, fun hlt => Nat.mod_eq_of_lt hlt⟩

/-- C2 witness: at width 30 and height 50 the product is in range and both
computations return 1500 = 30 * 50. -/
theorem area_fn_method_product_witness :
    30 * 50 < U32_MOD ∧ area 30 50 = 30 * 50 :=
  ⟨by decide, (area_fn_method_product 30 50).2.2 (by decide)⟩

/-- C3: the three area computations agree on every width and height:
`area(w, h)`, `area2((w, h))` on the tuple and `area3(&Rectangle)` on the
struct return the same value. -/
theorem area_area2_area3_agree (w h : Nat) :
    area2 (w, h) = area w h ∧ area3 ⟨w, h⟩ = area w h :=
  ⟨rfl, rfl⟩

/-- C4: the second definition of `plus_one` matches only the `Some(i)`
pattern: for `None` no arm of its `match` applies (the missing-case branch
is reachable), while `Some(i)` is handled. -/
theorem plus_one_nonexhaustive_missing_none :
    plus_one_nonexhaustive none = none ∧
    ∀ i : Int, (plus_one_nonexhaustive (some i)).isSome = true :=
  ⟨rfl, fun _ => rfl⟩

/-- C5 counterexample: at `i = i32::MAX = 2^31 - 1` the `i32` addition
`i + 1` wraps, so `plus_one (some i)` is not `some (i + 1)`. -/
theorem plus_one_overflow_cex :
    plus_one (some 2147483647) ≠ some (2147483647 + 1) := by
  decide

/-- C5 amended: `plus_one` maps `None` to `None` without performing any
operation, and maps `Some(i)` to `Some(i + 1)` for every `i32` value `i`
whose successor stays in the `i32` range (all `i < 2^31 - 1`); at
`i32::MAX` the addition wraps. -/
theorem plus_one_match_spec :
    plus_one none = none ∧
    ∀ i : Int, -(2 ^ 31) ≤ i → i + 1 < 2 ^ 31 → plus_one (some i) = some (i + 1) := by
  refine ⟨rfl, fun i h1 h2 => ?_⟩
  have h0 : (0 : Int) ≤ i + 1 + 2 ^ 31 := by linarith
  have hlt : i + 1 + 2 ^ 31 < 2 ^ 32 := by
    have hp : (2 : Int) ^ 32 = 2 ^ 31 + 2 ^ 31 := by norm_num
    linarith
  simp only [plus_one, wrapI32]
  rw [Int.emod_eq_of_lt h0 hlt]
  have hc : i + 1 + 2 ^ 31 - 2 ^ 31 = i + 1 := by ring
  rw [hc]

/-- C5 witness: at `i = 5` the hypotheses hold and `plus_one (some 5)`
returns `some 6`. -/
theorem plus_one_match_spec_witness :
    (-(2 ^ 31) ≤ (5 : Int)) ∧ ((5 : Int) + 1 < 2 ^ 31) ∧
    plus_one (some 5) = some (5 + 1) :=
  ⟨by decide, by decide, plus_one_match_spec.2 5 (by decide) (by decide)⟩

/-- C6: the returned cent value of `value_in_cents3` (over the second
`Coin` definition, whose `Quarter` carries a `UsState`) agrees with
`value_in_cents` on the corresponding variant of the first `Coin`
definition: 1, 5, 10, and 25 for any `Quarter`. -/
theorem value_in_cents3_agrees_with_value_in_cents :
    ∀ c : Coin2, (value_in_cents3 c).2 = value_in_cents c.toPlain := by
  intro c
  cases c <;> rfl

/-- C7: `main` of `src/example.rs` prints exactly one line, reporting the
area of the 30-by-50 rectangle as 1500 square pixels, and performs no
other observable action. -/
theorem main_prints_one_area_line :
    main_output = ["The area of the rectangle is 1500 square pixels."] ∧
    main_output.length = 1 :=
  ⟨rfl, rfl⟩

/-- C8: the cent value returned by `value_in_cents3` does not depend on
the `UsState` carried by the `Quarter` variant: it is 25 for every state,
and equal for any two states; the state only affects the printed line. -/
theorem value_in_cents3_state_independent :
    ∀ s1 s2 : UsState,
      (value_in_cents3 (Coin2.Quarter s1)).2 = 25 ∧
      (value_in_cents3 (Coin2.Quarter s1)).2 = (value_in_cents3 (Coin2.Quarter s2)).2 :=
  fun _ _ => ⟨rfl, rfl⟩

/-- C9: `can_hold` uses strict inequalities on both dimensions, so on two
rectangles of equal width and equal height it returns `false`, for both
the `Rectangle6` version and the `Rectangle` version. -/
theorem can_hold_irreflexive (r1 r2 : Rectangle6) (s1 s2 : Rectangle)
    (hw : r1.width = r2.width) (hh : r1.height = r2.height)
    (hw2 : s1.width = s2.width) (hh2 : s1.height = s2.height) :
    Rectangle6.can_hold r1 r2 = false ∧ Rectangle.can_hold s1 s2 = false := by
  constructor
  · simp [Rectangle6.can_hold, hw, hh]
  · simp [Rectangle.can_hold, hw2, hh2]

/-- C9 witness: a 30-by-50 rectangle cannot hold a rectangle of exactly
its own dimensions, in either version. -/
theorem can_hold_irreflexive_witness :
    Rectangle6.can_hold ⟨30, 50⟩ ⟨30, 50⟩ = false ∧
    Rectangle.can_hold ⟨30, 50⟩ ⟨30, 50⟩ = false :=
  can_hold_irreflexive ⟨30, 50⟩ ⟨30, 50⟩ ⟨30, 50⟩ ⟨30, 50⟩ rfl rfl rfl rfl

/-- C10: the `u32` area computations wrap: `area` and `Rectangle4::area`
return `(w * h) % 2^32`, which equals the mathematical product exactly
when that product is below `2^32`; `w = h = 2^16` exceeds that range. -/
theorem area_wrapping_semantics :
    (∀ w h : Nat, area w h = (w * h) % 2 ^ 32 ∧
      Rectangle4.area ⟨w, h⟩ = (w * h) % 2 ^ 32 ∧
      (area w h = w * h ↔ w * h < 2 ^ 32)) ∧
    ¬ (2 ^ 16 * 2 ^ 16 < 2 ^ 32) := by
  refine ⟨fun w h => ⟨rfl, rfl, ?_, ?_⟩, by norm_num⟩
  · intro hEq
    have h2 : (w * h) % 2 ^ 32 = w * h := hEq
    rw [← h2]
    exact Nat.mod_lt _ (by norm_num)
  · intro hlt
    exact Nat.mod_eq_of_lt hlt

/-- C10 witness: the wrapped form evaluated at the overflowing input
`w = h = 2^16`, where the returned area is 0, not `2^32`. -/
theorem area_wrapping_semantics_witness :
    area 65536 65536 = (65536 * 65536) % 2 ^ 32 ∧
    ¬ (65536 * 65536 < 2 ^ 32) :=
  ⟨(area_wrapping_semantics.1 65536 65536).1, by decide⟩

end RustStructsEnums
